import Mathlib

/-!
# Carousel: breakpoint resolution, page arithmetic and the page-index state machine

A shallow embedding of `src/index.js` (the `Carousel` React component and its two
helpers `useCurrentBreakpoint` and `getStandardizedItemsPerPage`).

Modelling conventions

* JavaScript numbers that hold pixel positions, widths and the page index are `Int`
  (the index can become negative in the source, so it is not a `Nat`); counts of
  children and of items per page are `Nat`.
* A breakpoint rule `[minWidth, itemsPerPage]` is a pair `Int × Nat`; an array of
  rules is a `List`.
* `setIndex(updater)` is modelled by the updater itself, a function `Int → Int`
  from the previous index to the next one; `setIndex(value)` by the constant.
* `Math.ceil(a / b)` is the ceiling of the exact quotient in `ℚ`.
* The string assigned to `feedbackRef.current.style.transform` is one of three
  shapes, kept as the constructors of `Transform`; `Transform.offset` reads the
  signed pixel offset off the string.
-/

namespace Carousel

/-! ## JavaScript values that reach a truth test or a strict comparison -/

/-- A breakpoint rule, the two-element array `[minWidth, itemsPerPage]`. -/
abbrev Rule := Int × Nat

/-- The values that the source compares with `===` or tests for truthiness:
`undefined`, a boolean, a number, or an object (an array such as a rule, or a DOM
event). -/
inductive JsValue where
  | undefined : JsValue
  | boolean (b : Bool) : JsValue
  | number (n : Int) : JsValue
  | object : JsValue
  deriving DecidableEq, Repr

/-- Strict equality `v === n` against a number literal: true only for that number. -/
def JsValue.strictEqNumber : JsValue → Int → Bool
  | JsValue.number m, n => m == n
  | _, _ => false

/-- The boolean a value takes in a conditional (`ToBoolean`), for the values a
`loop` argument can hold. -/
def JsValue.truthy : JsValue → Bool
  | JsValue.undefined => false
  | JsValue.boolean b => b
  | JsValue.number n => n != 0
  | JsValue.object => true

/-- A default parameter `loop = false`: the default replaces `undefined` only. -/
def defaultFalse : JsValue → JsValue
  | JsValue.undefined => JsValue.boolean false
  | v => v

/-- Reading `array[0]` on an array of rules: the first rule (an object), or
`undefined` when the array is empty. -/
def firstElement : List Rule → JsValue
  | [] => JsValue.undefined
  | _ :: _ => JsValue.object

/-! ## `getStandardizedItemsPerPage` and `useCurrentBreakpoint` -/

/-- The order of the comparator `(a, b) => a[0] - b[0]`: `a` is not placed after
`b` when `a[0] - b[0] <= 0`. -/
def minWidthLe (a b : Rule) : Prop := a.1 - b.1 ≤ 0

instance : DecidableRel minWidthLe := fun a b => inferInstanceAs (Decidable (a.1 - b.1 ≤ 0))

instance : IsTotal Rule minWidthLe := ⟨fun a b => by unfold minWidthLe; omega⟩

instance : IsTrans Rule minWidthLe := ⟨fun a b c => by unfold minWidthLe; omega⟩

/-- The call `itemsPerPage.sort((a, b) => a[0] - b[0])`: a stable sort, ascending
by `minWidth`. -/
def sortByMinWidth (itemsPerPage : List Rule) : List Rule :=
  itemsPerPage.insertionSort minWidthLe

/-- Lines 31-37.
```
const sortedItemsPerPage = itemsPerPage.sort((a, b) => a[0] - b[0]);
if (sortedItemsPerPage[0] === 0) return sortedItemsPerPage;
return [[0, 1], ...sortedItemsPerPage];
```
The test compares the first *rule* (not its `minWidth`) with `0`. -/
def getStandardizedItemsPerPage (itemsPerPage : List Rule) : List Rule :=
  let sortedItemsPerPage := sortByMinWidth itemsPerPage
  if (firstElement sortedItemsPerPage).strictEqNumber 0 then sortedItemsPerPage
  else (0, 1) :: sortedItemsPerPage

/-- The loop of `handleResize` (lines 8-14), with `n = index + 1`: the scan runs
from `index = n - 1` down to `0` and stops at the first element whose `minWidth`
is `<= innerWidth`; `none` is `value` left `undefined`. -/
def handleResizeLoop (itemsPerPage : List Rule) (innerWidth : Int) : Nat → Option Rule
  | 0 => none
  | index + 1 =>
    match itemsPerPage[index]? with
    | some element =>
      if element.1 ≤ innerWidth then some element
      else handleResizeLoop itemsPerPage innerWidth index
    | none => handleResizeLoop itemsPerPage innerWidth index

/-- Lines 6-16: `handleResize`, returning the value passed to
`setCurrentBreakpoint`. The loop starts at `index = itemsPerPage.length - 1`. -/
def handleResize (itemsPerPage : List Rule) (innerWidth : Int) : Option Rule :=
  handleResizeLoop itemsPerPage innerWidth itemsPerPage.length

/-! ## Page arithmetic -/

/-- Line 93: `Math.ceil(children.length / breakpointNumber)`. -/
def pagesNumber (childrenLength breakpointNumber : Nat) : Int :=
  Int.ceil ((childrenLength : ℚ) / (breakpointNumber : ℚ))

/-- Lines 270-273: the `isVisible` flag of child `childIndex` on page `index`. -/
def isVisible (index : Int) (breakpointNumber : Nat) (childIndex : Nat) : Bool :=
  decide ((childIndex : Int) ≥ index * breakpointNumber)
    && decide ((childIndex : Int) < (index + 1) * breakpointNumber)

/-- The children shown (not `aria-hidden`) on page `index`. -/
def visibleItems (childrenLength breakpointNumber : Nat) (index : Int) : List Nat :=
  (List.range childrenLength).filter (isVisible index breakpointNumber)

/-! ## Index updaters -/

/-- Lines 95-97: the updater that `handlePrev(loop)` passes to `setIndex`. -/
def handlePrev (pagesNumber : Int) (loop : JsValue) (prevState : Int) : Int :=
  if prevState > 0 then prevState - 1
  else if (defaultFalse loop).truthy then pagesNumber - 1 else prevState

/-- Lines 98-100: the updater that `handleNext(loop)` passes to `setIndex`. -/
def handleNext (pagesNumber : Int) (loop : JsValue) (prevState : Int) : Int :=
  if prevState < pagesNumber - 1 then prevState + 1
  else if (defaultFalse loop).truthy then 0 else prevState

/-- Lines 165-169: the effect run when `pagesNumber` changes (and on mount). -/
def reconcile (pagesNumber : Int) (index : Int) : Int :=
  if index > pagesNumber - 1 then pagesNumber - 1 else index

/-- Line 179: the interval callback `() => handleNext(true)`. -/
def autoPlayTick (pagesNumber : Int) (prevState : Int) : Int :=
  handleNext pagesNumber (JsValue.boolean true) prevState

/-- Line 236: `onClick={handleNext}`. React calls the handler with the click
event, which thus becomes the `loop` argument. -/
def nextButtonOnClick (pagesNumber : Int) (prevState : Int) : Int :=
  handleNext pagesNumber JsValue.object prevState

/-- Line 225: `onClick={handlePrev}`, called with the click event. -/
def prevButtonOnClick (pagesNumber : Int) (prevState : Int) : Int :=
  handlePrev pagesNumber JsValue.object prevState

/-- Line 223: the prev button is rendered when `index !== 0`. -/
def prevButtonRendered (showNavigation : Bool) (index : Int) : Bool :=
  showNavigation && decide (index ≠ 0)

/-- Line 234: the next button is rendered when `index !== pagesNumber - 1`. -/
def nextButtonRendered (showNavigation : Bool) (pagesNumber index : Int) : Bool :=
  showNavigation && decide (index ≠ pagesNumber - 1)

/-- Line 201: `[...Array(pagesNumber)].map((_, controlIndex) => ...)`, the
`controlIndex` values for which a pagination button exists. -/
def paginationControls (pagesNumber : Int) : List Nat :=
  List.range pagesNumber.toNat

/-- Line 204: `onClick={() => setIndex(controlIndex)}`. -/
def paginationOnClick (controlIndex : Int) (_prevState : Int) : Int :=
  controlIndex

/-! ## Gestures -/

/-- The object `gesturesOptions` of lines 81-84. -/
structure GesturesOptions where
  minDistance : Int
  feedbackDistance : Int
  deriving DecidableEq, Repr

/-- The expression `given || 15` of lines 82-83 on an optional number: a missing
or zero value is replaced by 15. -/
def orFifteen : Option Int → Int
  | none => 15
  | some n => if n = 0 then 15 else n

/-- Lines 81-84: the defaults applied to the caller's `gesturesOptions`. -/
def gesturesOptionsOf (givenMinDistance givenFeedbackDistance : Option Int) :
    GesturesOptions :=
  { minDistance := orFifteen givenMinDistance,
    feedbackDistance := orFifteen givenFeedbackDistance }

/-- The three strings assigned to `feedbackRef.current.style.transform`. -/
inductive Transform where
  /-- The template string of line 136, a minus sign followed by the number. -/
  | translateXMinus (px : Int) : Transform
  /-- The template string of line 139. -/
  | translateXPlain (px : Int) : Transform
  /-- The literal `translateX(0)` of lines 129 and 141. -/
  | translateXZero : Transform
  deriving DecidableEq, Repr

/-- The signed pixel offset a transform string denotes. A minus sign followed by
a negative number is not a length, so that string denotes no offset. -/
def Transform.offset : Transform → Option Int
  | Transform.translateXMinus px => if 0 ≤ px then some (-px) else none
  | Transform.translateXPlain px => some px
  | Transform.translateXZero => some 0

/-- The variables of the gesture effect (lines 112-114), the transform of the
feedback element, and the page index. -/
structure GestureState where
  touchStart : Int
  touchMove : Int
  touchEnd : Int
  transform : Transform
  index : Int
  deriving DecidableEq, Repr

/-- A call of one of the two navigation functions, with its `loop` argument. -/
inductive NavCall where
  | next (loop : JsValue) : NavCall
  | prev (loop : JsValue) : NavCall
  deriving DecidableEq, Repr

/-- The updater a navigation call passes to `setIndex`. -/
def NavCall.updater (pagesNumber : Int) : NavCall → Int → Int
  | NavCall.next loop => handleNext pagesNumber loop
  | NavCall.prev loop => handlePrev pagesNumber loop

/-- Queued updaters are applied in call order, each to the result of the one
before. -/
def applyCalls (pagesNumber : Int) (calls : List NavCall) (index : Int) : Int :=
  calls.foldl (fun i c => c.updater pagesNumber i) index

/-- Lines 132-143: `handleFeedback`, returning the transform it assigns. -/
def handleFeedback (gesturesOptions : GesturesOptions) (touchStart touchMove : Int) :
    Transform :=
  let touchDelta := touchMove - touchStart
  if touchDelta < -(gesturesOptions.minDistance) then
    Transform.translateXMinus gesturesOptions.feedbackDistance
  else if touchDelta > gesturesOptions.minDistance then
    Transform.translateXPlain gesturesOptions.feedbackDistance
  else Transform.translateXZero

/-- Lines 145-155: `handleSwipe`, returning the navigation calls it makes, in
order. The two tests are independent `if` statements. -/
def handleSwipe (gesturesOptions : GesturesOptions) (touchStart touchEnd : Int) :
    List NavCall :=
  let touchDelta := touchEnd - touchStart
  (if touchDelta < -(gesturesOptions.minDistance) then [NavCall.next JsValue.undefined]
   else [])
  ++ (if touchDelta > gesturesOptions.minDistance then [NavCall.prev JsValue.undefined]
      else [])

/-- Lines 116-118: `handleTouchstart` with `screenX` of the first changed touch. -/
def handleTouchstart (screenX : Int) (s : GestureState) : GestureState :=
  { s with touchStart := screenX }

/-- Lines 119-123: `handleTouchmove`. -/
def handleTouchmove (gesturesOptions : GesturesOptions) (screenX : Int)
    (s : GestureState) : GestureState :=
  { s with touchMove := screenX,
           transform := handleFeedback gesturesOptions s.touchStart screenX }

/-- Lines 124-130: `handleTouchend`. -/
def handleTouchend (gesturesOptions : GesturesOptions) (pagesNumber : Int)
    (screenX : Int) (s : GestureState) : GestureState :=
  { s with touchEnd := screenX,
           index := applyCalls pagesNumber
             (handleSwipe gesturesOptions s.touchStart screenX) s.index,
           transform := Transform.translateXZero }

/-! ## The carousel as a machine over events -/

/-- What the index depends on: the number of children, the items per page of the
current breakpoint, and the index itself. -/
structure CarouselState where
  childrenLength : Nat
  breakpointNumber : Nat
  index : Int
  deriving DecidableEq, Repr

/-- The page count of a state (line 93). -/
def CarouselState.pagesNumber (s : CarouselState) : Int :=
  Carousel.pagesNumber s.childrenLength s.breakpointNumber

/-- The events that change the index. -/
inductive Event where
  /-- A call `handleNext(loop)`. -/
  | next (loop : JsValue) : Event
  /-- A call `handlePrev(loop)`. -/
  | prev (loop : JsValue) : Event
  /-- A click on the pagination button `controlIndex`. -/
  | paginationClick (controlIndex : Nat) : Event
  /-- A touch that starts at `startX` and ends at `endX`. -/
  | swipe (gesturesOptions : GesturesOptions) (startX endX : Int) : Event
  /-- A tick of the autoplay interval. -/
  | autoPlayTick : Event
  /-- New children or a new breakpoint, then the effect of lines 165-169. -/
  | pageCountChange (childrenLength breakpointNumber : Nat) : Event
  deriving DecidableEq, Repr

/-- The state after the first render and its effects: `useState(0)` followed by
the effect of lines 165-169, which also runs on mount. -/
def mount (childrenLength breakpointNumber : Nat) : CarouselState :=
  { childrenLength := childrenLength, breakpointNumber := breakpointNumber,
    index := reconcile (Carousel.pagesNumber childrenLength breakpointNumber) 0 }

/-- One event. A pagination click has an effect only on a button that exists. -/
def step (s : CarouselState) : Event → CarouselState
  | Event.next loop => { s with index := handleNext s.pagesNumber loop s.index }
  | Event.prev loop => { s with index := handlePrev s.pagesNumber loop s.index }
  | Event.paginationClick controlIndex =>
    if controlIndex ∈ paginationControls s.pagesNumber then
      { s with index := paginationOnClick controlIndex s.index }
    else s
  | Event.swipe gesturesOptions startX endX =>
    let calls := handleSwipe gesturesOptions startX endX
    { s with index := applyCalls s.pagesNumber calls s.index }
  | Event.autoPlayTick => { s with index := autoPlayTick s.pagesNumber s.index }
  | Event.pageCountChange childrenLength breakpointNumber =>
    { childrenLength := childrenLength, breakpointNumber := breakpointNumber,
      index := reconcile (Carousel.pagesNumber childrenLength breakpointNumber) s.index }

/-- A finite sequence of events, oldest first. -/
def run (s : CarouselState) (events : List Event) : CarouselState :=
  events.foldl step s

/-- The range invariant of a non-empty carousel. -/
def InRange (s : CarouselState) : Prop :=
  1 ≤ s.pagesNumber ∧ 0 ≤ s.index ∧ s.index ≤ s.pagesNumber - 1

/-- An event that keeps the carousel non-empty and its page size positive. -/
def Event.KeepsNonEmpty : Event → Prop
  | Event.pageCountChange childrenLength breakpointNumber =>
    1 ≤ childrenLength ∧ 1 ≤ breakpointNumber
  | _ => True

end Carousel

/-! # Theorems -/

namespace Carousel

/-! ## Breakpoint rules -/

/-- The test `sortedItemsPerPage[0] === 0` never succeeds on an array of rules, so
the rule `[0, 1]` is always put in front. -/
theorem getStandardizedItemsPerPage_eq (itemsPerPage : List Rule) :
    getStandardizedItemsPerPage itemsPerPage = (0, 1) :: sortByMinWidth itemsPerPage := by
  unfold getStandardizedItemsPerPage
  cases h : sortByMinWidth itemsPerPage <;> simp [firstElement, JsValue.strictEqNumber]

theorem handleResizeLoop_eq_find (itemsPerPage : List Rule) (innerWidth : Int) :
    ∀ n, n ≤ itemsPerPage.length →
      handleResizeLoop itemsPerPage innerWidth n
        = ((itemsPerPage.take n).reverse).find? (fun e => decide (e.1 ≤ innerWidth)) := by
  intro n
  induction n with
  | zero => intro _; simp [handleResizeLoop]
  | succ n ih =>
    intro hn
    have hlt : n < itemsPerPage.length := hn
    have hget : itemsPerPage[n]? = some itemsPerPage[n] := List.getElem?_eq_getElem hlt
    have htake : itemsPerPage.take (n + 1) = itemsPerPage.take n ++ [itemsPerPage[n]] := by
      rw [List.take_succ, hget]; rfl
    rw [handleResizeLoop, hget, htake, List.reverse_append]
    simp only [List.reverse_cons, List.reverse_nil, List.nil_append, List.singleton_append,
      List.find?_cons]
    by_cases hle : (itemsPerPage[n]).1 ≤ innerWidth
    · simp [hle]
    · simp [hle, ih (Nat.le_of_lt hlt)]

/-- The downward scan returns the first fitting rule of the reversed array. -/
theorem handleResize_eq_find (itemsPerPage : List Rule) (innerWidth : Int) :
    handleResize itemsPerPage innerWidth
      = itemsPerPage.reverse.find? (fun e => decide (e.1 ≤ innerWidth)) := by
  unfold handleResize
  rw [handleResizeLoop_eq_find _ _ _ (Nat.le_refl _), List.take_length]

theorem sortByMinWidth_sorted (itemsPerPage : List Rule) :
    (sortByMinWidth itemsPerPage).Pairwise (fun a b => a.1 ≤ b.1) := by
  have h := List.sorted_insertionSort minWidthLe itemsPerPage
  refine List.Pairwise.imp ?_ h
  intro a b hab
  unfold minWidthLe at hab
  omega

theorem sortByMinWidth_perm (itemsPerPage : List Rule) :
    (sortByMinWidth itemsPerPage).Perm itemsPerPage :=
  List.perm_insertionSort minWidthLe itemsPerPage

theorem mem_sortByMinWidth (itemsPerPage : List Rule) (r : Rule) :
    r ∈ sortByMinWidth itemsPerPage ↔ r ∈ itemsPerPage :=
  (sortByMinWidth_perm itemsPerPage).mem_iff

/-- In a list whose `minWidth`s descend, the first element that fits the width is
the one with the greatest `minWidth` among those that fit. -/
theorem find_descending (innerWidth : Int) :
    ∀ (xs : List Rule), xs.Pairwise (fun a b => b.1 ≤ a.1) → ∀ c,
      xs.find? (fun e => decide (e.1 ≤ innerWidth)) = some c →
      c ∈ xs ∧ c.1 ≤ innerWidth ∧ ∀ d ∈ xs, d.1 ≤ innerWidth → d.1 ≤ c.1 := by
  intro xs
  induction xs with
  | nil => intro _ c h; simp at h
  | cons x xs ih =>
    intro hp c h
    rw [List.pairwise_cons] at hp
    rw [List.find?_cons] at h
    by_cases hx : x.1 ≤ innerWidth
    · simp only [hx, decide_True] at h
      cases h
      refine ⟨List.mem_cons_self _ _, hx, ?_⟩
      intro d hd _
      rcases List.mem_cons.mp hd with rfl | hd
      · exact le_refl _
      · exact hp.1 d hd
    · simp only [hx, decide_False] at h
      obtain ⟨hc, hcw, hmax⟩ := ih hp.2 c h
      refine ⟨List.mem_cons_of_mem _ hc, hcw, ?_⟩
      intro d hd hdw
      rcases List.mem_cons.mp hd with rfl | hd
      · exact absurd hdw hx
      · exact hmax d hd hdw

/-- The resolution of a width against the standardized rules, in terms of the
caller's rules. -/
theorem handleResize_standardized (rules : List Rule) (W : Int) (hW : 0 ≤ W) :
    (∃ c ∈ rules, c.1 ≤ W ∧ (∀ d ∈ rules, d.1 ≤ W → d.1 ≤ c.1) ∧
        handleResize (getStandardizedItemsPerPage rules) W = some c)
    ∨ ((∀ c ∈ rules, W < c.1) ∧
        handleResize (getStandardizedItemsPerPage rules) W = some (0, 1)) := by
  rw [handleResize_eq_find, getStandardizedItemsPerPage_eq, List.reverse_cons,
    List.find?_append]
  have hdesc : (sortByMinWidth rules).reverse.Pairwise (fun a b => b.1 ≤ a.1) := by
    rw [List.pairwise_reverse]; exact sortByMinWidth_sorted rules
  cases hfind : (sortByMinWidth rules).reverse.find? (fun e => decide (e.1 ≤ W)) with
  | some c =>
    left
    obtain ⟨hc, hcw, hmax⟩ := find_descending W _ hdesc c hfind
    refine ⟨c, ?_, hcw, ?_, by simp⟩
    · exact (mem_sortByMinWidth rules c).mp (List.mem_reverse.mp hc)
    · intro d hd hdw
      exact hmax d (List.mem_reverse.mpr ((mem_sortByMinWidth rules d).mpr hd)) hdw
  | none =>
    right
    rw [List.find?_eq_none] at hfind
    refine ⟨?_, by simp [hW]⟩
    intro c hc
    have := hfind c (List.mem_reverse.mpr ((mem_sortByMinWidth rules c).mpr hc))
    simpa using this

/-- C2: for caller rules with pairwise-distinct `minWidth`s and a viewport width
`W >= 0`, the downward scan of `handleResize` over
`getStandardizedItemsPerPage(rules)` always returns a rule; that rule is the
caller's rule with the greatest `minWidth <= W`, or one with `itemsPerPage = 1`
when no caller rule has `minWidth <= W`; and a caller rule `(0, k)` is the one
returned at every width below all the other breakpoints. (The `minWidth`s need
not be assumed non-negative for this.) -/
theorem handleResize_standardized_greatest (rules : List Rule) (W : Int)
    (hdistinct : rules.Pairwise (fun a b => a.1 ≠ b.1)) (hW : 0 ≤ W) :
    (∃ r, handleResize (getStandardizedItemsPerPage rules) W = some r ∧
      ((∃ c ∈ rules, c.1 ≤ W ∧ (∀ d ∈ rules, d.1 ≤ W → d.1 ≤ c.1) ∧ r = c)
        ∨ ((∀ c ∈ rules, W < c.1) ∧ r.2 = 1)))
    ∧ (∀ k, (0, k) ∈ rules → (∀ d ∈ rules, d.1 ≠ 0 → W < d.1) →
        handleResize (getStandardizedItemsPerPage rules) W = some (0, k)) := by
  constructor
  · rcases handleResize_standardized rules W hW with ⟨c, hc, hcw, hmax, hres⟩ | ⟨hnone, hres⟩
    · exact ⟨c, hres, Or.inl ⟨c, hc, hcw, hmax, rfl⟩⟩
    · exact ⟨(0, 1), hres, Or.inr ⟨hnone, rfl⟩⟩
  · intro k hk hbelow
    rcases handleResize_standardized rules W hW with ⟨c, hc, hcw, _, hres⟩ | ⟨hnone, _⟩
    · have hc0 : c.1 = 0 := by
        by_contra hne
        have := hbelow c hc hne
        omega
      have hsymm : Symmetric (fun a b : Rule => a.1 ≠ b.1) := fun a b h => Ne.symm h
      have hceq : c = (0, k) := by
        by_contra hne
        exact hdistinct.forall hsymm hc hk hne hc0
      rw [hres, hceq]
    · have := hnone (0, k) hk
      simp only at this
      omega

/-- A use of C2: rules `[[1024, 4], [768, 3], [0, 2]]` at width 100 resolve to the
caller's rule `[0, 2]`. -/
theorem handleResize_standardized_greatest_witness :
    ([((1024 : Int), 4), (768, 3), (0, 2)].Pairwise (fun a b => a.1 ≠ b.1) ∧ (0 : Int) ≤ 100)
    ∧ handleResize (getStandardizedItemsPerPage [(1024, 4), (768, 3), (0, 2)]) 100
        = some (0, 2) :=
  ⟨⟨by decide, by decide⟩,
    (handleResize_standardized_greatest [(1024, 4), (768, 3), (0, 2)] 100
      (by decide) (by decide)).2 2 (by decide) (by decide)⟩

/-- C8: on the input `[[0, 2]]`, which has a rule with `minWidth` 0, the rule
`[0, 1]` is added all the same: the result is `[[0, 1], [0, 2]]`, whose
`minWidth`s are not pairwise distinct. This holds for every input: the result is
always `[0, 1]` followed by the sorted input. -/
theorem getStandardizedItemsPerPage_adds_rule_despite_zero :
    getStandardizedItemsPerPage [(0, 2)] = [(0, 1), (0, 2)]
    ∧ ¬ (getStandardizedItemsPerPage [(0, 2)]).Pairwise (fun a b => a.1 ≠ b.1)
    ∧ ∀ rules : List Rule,
        getStandardizedItemsPerPage rules = (0, 1) :: sortByMinWidth rules := by
  refine ⟨by decide, by decide, ?_⟩
  intro rules
  unfold getStandardizedItemsPerPage
  cases h : sortByMinWidth rules <;> simp [firstElement, JsValue.strictEqNumber]

/-! ## Page arithmetic -/

/-- The two inequalities that pin down the ceiling of line 93. -/
theorem pagesNumber_bounds (childrenLength breakpointNumber : Nat)
    (hk : 1 ≤ breakpointNumber) :
    (childrenLength : Int) ≤ pagesNumber childrenLength breakpointNumber * breakpointNumber
    ∧ (pagesNumber childrenLength breakpointNumber - 1) * breakpointNumber
        < childrenLength := by
  have hk' : (0 : ℚ) < (breakpointNumber : ℚ) := by exact_mod_cast hk
  have h1 := Int.le_ceil ((childrenLength : ℚ) / (breakpointNumber : ℚ))
  have h2 := Int.ceil_lt_add_one ((childrenLength : ℚ) / (breakpointNumber : ℚ))
  rw [div_le_iff₀ hk'] at h1
  rw [← sub_lt_iff_lt_add, lt_div_iff₀ hk'] at h2
  unfold pagesNumber
  constructor
  · exact_mod_cast h1
  · exact_mod_cast h2

/-- The ceiling of line 93 as a natural-number division. -/
theorem pagesNumber_eq_div (childrenLength breakpointNumber : Nat)
    (hk : 1 ≤ breakpointNumber) :
    pagesNumber childrenLength breakpointNumber
      = (((childrenLength + breakpointNumber - 1) / breakpointNumber : Nat) : Int) := by
  obtain ⟨h1, h2⟩ := pagesNumber_bounds childrenLength breakpointNumber hk
  have hk' : (0 : Int) < (breakpointNumber : Int) := by exact_mod_cast hk
  have hcast : (((childrenLength + breakpointNumber - 1) / breakpointNumber : Nat) : Int)
      = ((childrenLength : Int) + breakpointNumber - 1) / breakpointNumber := by
    rw [Int.natCast_div]
    congr 1
    omega
  rw [hcast]
  apply le_antisymm
  · rw [Int.le_ediv_iff_mul_le hk']
    linarith
  · have : ((childrenLength : Int) + breakpointNumber - 1) / breakpointNumber
        < pagesNumber childrenLength breakpointNumber + 1 := by
      rw [Int.ediv_lt_iff_lt_mul hk']
      linarith
    omega

theorem pagesNumber_nonneg (childrenLength breakpointNumber : Nat) :
    0 ≤ pagesNumber childrenLength breakpointNumber := by
  unfold pagesNumber
  exact Int.ceil_nonneg (div_nonneg (Nat.cast_nonneg _) (Nat.cast_nonneg _))

/-- A carousel with at least one child has at least one page. -/
theorem pagesNumber_pos (childrenLength breakpointNumber : Nat)
    (hn : 1 ≤ childrenLength) (hk : 1 ≤ breakpointNumber) :
    1 ≤ pagesNumber childrenLength breakpointNumber := by
  obtain ⟨h1, _⟩ := pagesNumber_bounds childrenLength breakpointNumber hk
  have hn' : (1 : Int) ≤ (childrenLength : Int) := by exact_mod_cast hn
  have hk' : (0 : Int) < (breakpointNumber : Int) := by exact_mod_cast hk
  by_contra hlt
  have hle : pagesNumber childrenLength breakpointNumber ≤ 0 := by omega
  have := mul_nonpos_of_nonpos_of_nonneg hle (le_of_lt hk')
  omega

theorem isVisible_iff (index : Int) (breakpointNumber childIndex : Nat)
    (hk : 1 ≤ breakpointNumber) :
    isVisible index breakpointNumber childIndex = true
      ↔ index = (childIndex : Int) / (breakpointNumber : Int) := by
  have hk' : (0 : Int) < (breakpointNumber : Int) := by exact_mod_cast hk
  unfold isVisible
  simp only [Bool.and_eq_true, decide_eq_true_eq, ge_iff_le]
  rw [← Int.le_ediv_iff_mul_le hk', ← Int.ediv_lt_iff_lt_mul hk']
  omega

theorem isVisible_nat_iff (m breakpointNumber childIndex : Nat) :
    isVisible (m : Int) breakpointNumber childIndex = true
      ↔ m * breakpointNumber ≤ childIndex ∧ childIndex < (m + 1) * breakpointNumber := by
  unfold isVisible
  simp only [Bool.and_eq_true, decide_eq_true_eq, ge_iff_le]
  constructor
  · rintro ⟨h1, h2⟩
    exact ⟨by exact_mod_cast h1, by exact_mod_cast h2⟩
  · rintro ⟨h1, h2⟩
    exact ⟨by exact_mod_cast h1, by exact_mod_cast h2⟩

/-- The visible children of a page form a contiguous run. -/
theorem visibleItems_eq_range (breakpointNumber m : Nat) :
    ∀ childrenLength : Nat,
      visibleItems childrenLength breakpointNumber (m : Int)
        = List.range' (m * breakpointNumber)
            (min breakpointNumber (childrenLength - m * breakpointNumber)) := by
  intro n
  induction n with
  | zero => simp [visibleItems]
  | succ n ih =>
    have hstep : visibleItems (n + 1) breakpointNumber (m : Int)
        = visibleItems n breakpointNumber (m : Int)
          ++ (if isVisible (m : Int) breakpointNumber n = true then [n] else []) := by
      unfold visibleItems
      rw [List.range_succ, List.filter_append]
      by_cases hv : isVisible (m : Int) breakpointNumber n = true
      · simp [hv]
      · simp [hv]
    rw [hstep, ih]
    have hmul : (m + 1) * breakpointNumber = m * breakpointNumber + breakpointNumber := by ring
    by_cases hv : isVisible (m : Int) breakpointNumber n = true
    · rw [if_pos hv]
      rw [isVisible_nat_iff, hmul] at hv
      have e1 : min breakpointNumber (n - m * breakpointNumber) = n - m * breakpointNumber := by
        omega
      have e2 : min breakpointNumber (n + 1 - m * breakpointNumber)
          = (n - m * breakpointNumber) + 1 := by omega
      rw [e1, e2, List.range'_1_concat]
      congr 2
      omega
    · rw [if_neg hv, List.append_nil]
      rw [isVisible_nat_iff, hmul] at hv
      congr 1
      omega

/-- C3: for `itemsPerPage >= 1` and `pagesNumber = ceil(itemCount / itemsPerPage)`,
every item index `i < itemCount` is visible on exactly one page, that page lies
in `0 .. pagesNumber - 1`, and every page `p < pagesNumber` shows a contiguous
run of at least one and at most `itemsPerPage` items. Five items at two per page
give three pages `{0,1}`, `{2,3}`, `{4}`; no items give no pages. -/
theorem pages_partition_items (itemCount itemsPerPage : Nat) (hk : 1 ≤ itemsPerPage) :
    (∀ i, i < itemCount → ∃! p : Int, isVisible p itemsPerPage i = true)
    ∧ (∀ i, i < itemCount → ∀ p : Int, isVisible p itemsPerPage i = true →
        0 ≤ p ∧ p < pagesNumber itemCount itemsPerPage)
    ∧ (∀ p : Nat, (p : Int) < pagesNumber itemCount itemsPerPage →
        visibleItems itemCount itemsPerPage p
            = List.range' (p * itemsPerPage)
                (min itemsPerPage (itemCount - p * itemsPerPage))
        ∧ 1 ≤ (visibleItems itemCount itemsPerPage p).length
        ∧ (visibleItems itemCount itemsPerPage p).length ≤ itemsPerPage)
    ∧ pagesNumber 0 itemsPerPage = 0
    ∧ (pagesNumber 5 2 = 3 ∧ visibleItems 5 2 0 = [0, 1] ∧ visibleItems 5 2 1 = [2, 3]
        ∧ visibleItems 5 2 2 = [4]) := by
  have hk' : (0 : Int) < (itemsPerPage : Int) := by exact_mod_cast hk
  obtain ⟨hb1, hb2⟩ := pagesNumber_bounds itemCount itemsPerPage hk
  refine ⟨?_, ?_, ?_, ?_, ?_⟩
  · intro i _
    refine ⟨(i : Int) / (itemsPerPage : Int), ?_, ?_⟩
    · exact (isVisible_iff _ _ _ hk).mpr rfl
    · intro q hq
      exact (isVisible_iff _ _ _ hk).mp hq
  · intro i hi p hp
    rw [isVisible_iff _ _ _ hk] at hp
    subst hp
    refine ⟨Int.ediv_nonneg (Int.ofNat_nonneg _) (le_of_lt hk'), ?_⟩
    rw [Int.ediv_lt_iff_lt_mul hk']
    have hi' : (i : Int) < (itemCount : Int) := by exact_mod_cast hi
    omega
  · intro p hp
    have hlt : p * itemsPerPage < itemCount := by
      have h1 : (p : Int) ≤ pagesNumber itemCount itemsPerPage - 1 := by omega
      have h2 := mul_le_mul_of_nonneg_right h1 (le_of_lt hk')
      have h3 : ((p * itemsPerPage : Nat) : Int) < (itemCount : Int) := by
        push_cast
        omega
      exact_mod_cast h3
    have heq := visibleItems_eq_range itemsPerPage p itemCount
    refine ⟨heq, ?_, ?_⟩
    · rw [heq, List.length_range']
      omega
    · rw [heq, List.length_range']
      omega
  · simp [pagesNumber]
  · refine ⟨?_, by decide, by decide, by decide⟩
    rw [pagesNumber_eq_div 5 2 (by decide)]
    rfl

/-- A use of C3: seven items at three per page; the last page, page 2, shows
between one and three items. -/
theorem pages_partition_items_witness :
    1 ≤ 3 ∧ ((2 : Nat) : Int) < pagesNumber 7 3
    ∧ 1 ≤ (visibleItems 7 3 (2 : Nat)).length ∧ (visibleItems 7 3 (2 : Nat)).length ≤ 3 :=
  ⟨by decide, by rw [pagesNumber_eq_div 7 3 (by decide)]; decide,
    ((pages_partition_items 7 3 (by decide)).2.2.1 2
      (by rw [pagesNumber_eq_div 7 3 (by decide)]; decide)).2⟩

/-! ## Index updaters -/

/-- One autoplay tick on an index written as a remainder. -/
theorem autoPlayTick_emod (pageCount : Int) (hp : 1 ≤ pageCount) (k : Int) :
    autoPlayTick pageCount (k % pageCount) = (k + 1) % pageCount := by
  have hpos : (0 : Int) < pageCount := by omega
  have h0 : 0 ≤ k % pageCount := Int.emod_nonneg k (by omega)
  have h1 : k % pageCount < pageCount := Int.emod_lt_of_pos k hpos
  rw [← Int.emod_add_emod k pageCount 1]
  generalize k % pageCount = r at h0 h1
  unfold autoPlayTick handleNext
  simp only [defaultFalse, JsValue.truthy, if_true]
  by_cases hlt : r < pageCount - 1
  · rw [if_pos hlt, Int.emod_eq_of_lt (by omega) (by omega)]
  · rw [if_neg hlt]
    have : r + 1 = pageCount := by omega
    rw [this, Int.emod_self]

/-- C4: for `pageCount >= 1`, `k` autoplay ticks (`handleNext(true)`) from index 0
leave the index at `k mod pageCount`. -/
theorem autoPlayTick_iterate (pageCount : Int) (hp : 1 ≤ pageCount) (k : Nat) :
    (autoPlayTick pageCount)^[k] 0 = (k : Int) % pageCount := by
  induction k with
  | zero => simp
  | succ k ih =>
    rw [Function.iterate_succ_apply', ih, autoPlayTick_emod pageCount hp]
    push_cast
    rfl

/-- A use of C4: seven ticks over three pages end on page 1. -/
theorem autoPlayTick_iterate_witness :
    (1 : Int) ≤ 3 ∧ (autoPlayTick 3)^[7] 0 = ((7 : Nat) : Int) % 3 :=
  ⟨by decide, autoPlayTick_iterate 3 (by decide) 7⟩

/-- C10: for `pageCount >= 1` and an index in `[0, pageCount - 1]`, the updaters of
`handleNext` and `handlePrev` return an index in `[0, pageCount - 1]` whatever
`loop` is; for `newPageCount >= 1` and an index `>= 0`, the reconcile step returns
`min(index, newPageCount - 1)`, which lies in `[0, newPageCount - 1]`. Index 2
with the page count going from 3 to 1 becomes 0. -/
theorem updaters_preserve_range (pageCount newPageCount : Int)
    (hp : 1 ≤ pageCount) (hnew : 1 ≤ newPageCount) :
    (∀ (loop : JsValue) (index : Int), 0 ≤ index → index ≤ pageCount - 1 →
        (0 ≤ handleNext pageCount loop index ∧ handleNext pageCount loop index ≤ pageCount - 1)
        ∧ (0 ≤ handlePrev pageCount loop index
            ∧ handlePrev pageCount loop index ≤ pageCount - 1))
    ∧ (∀ index : Int, 0 ≤ index →
        reconcile newPageCount index = min index (newPageCount - 1)
        ∧ 0 ≤ reconcile newPageCount index
        ∧ reconcile newPageCount index ≤ newPageCount - 1)
    ∧ reconcile (pagesNumber 5 5) 2 = 0 := by
  refine ⟨?_, ?_, ?_⟩
  · intro loop index h0 h1
    unfold handleNext handlePrev
    refine ⟨?_, ?_⟩
    · split_ifs <;> omega
    · split_ifs <;> omega
  · intro index h0
    unfold reconcile
    split_ifs with h
    · refine ⟨?_, by omega, by omega⟩
      rw [min_eq_right (by omega)]
    · refine ⟨?_, by omega, by omega⟩
      rw [min_eq_left (by omega)]
  · rw [pagesNumber_eq_div 5 5 (by decide)]
    rfl

/-- A use of C10: three pages shrinking to one. -/
theorem updaters_preserve_range_witness :
    ((1 : Int) ≤ 3 ∧ (1 : Int) ≤ 1)
    ∧ handleNext 3 (JsValue.boolean true) 2 ≤ 3 - 1
    ∧ reconcile 1 2 = min 2 (1 - 1) :=
  ⟨⟨by decide, by decide⟩,
    ((updaters_preserve_range 3 1 (by decide) (by decide)).1 (JsValue.boolean true) 2
      (by decide) (by decide)).1.2,
    ((updaters_preserve_range 3 1 (by decide) (by decide)).2.1 2 (by decide)).1⟩

/-- C6: the handler bound to `onClick` of the next button receives the click event
as `loop`, which is truthy, so at the last index it sets the index to 0; the
handler of the prev button at index 0 sets it to `pageCount - 1`. With two pages
the index goes from 1 to 0 and from 0 to 1. The same functions called without an
argument, as a swipe does, leave the index where it is. -/
theorem button_click_wraps_at_boundary :
    nextButtonOnClick 2 1 = 0 ∧ prevButtonOnClick 2 0 = 1
    ∧ (∀ pageCount : Int, nextButtonOnClick pageCount (pageCount - 1) = 0)
    ∧ (∀ pageCount : Int, prevButtonOnClick pageCount 0 = pageCount - 1)
    ∧ (∀ pageCount : Int,
        handleNext pageCount JsValue.undefined (pageCount - 1) = pageCount - 1)
    ∧ (∀ pageCount : Int, handlePrev pageCount JsValue.undefined 0 = 0) := by
  refine ⟨by decide, by decide, ?_, ?_, ?_, ?_⟩
  · intro pageCount
    simp [nextButtonOnClick, handleNext, defaultFalse, JsValue.truthy]
  · intro pageCount
    simp [prevButtonOnClick, handlePrev, defaultFalse, JsValue.truthy]
  · intro pageCount
    simp [handleNext, defaultFalse, JsValue.truthy]
  · intro pageCount
    simp [handlePrev, defaultFalse, JsValue.truthy]

/-- The pagination buttons are those of the indices `0 .. pagesNumber - 1`. -/
theorem mem_paginationControls (pageCount : Int) (n : Nat) :
    n ∈ paginationControls pageCount ↔ (n : Int) < pageCount := by
  unfold paginationControls
  rw [List.mem_range]
  omega

/-- C7, as stated, fails: with three pages the handler made for `controlIndex = 5`
sets the index to 5, not to the clamped value 2. -/
theorem paginationOnClick_not_clamped :
    paginationOnClick 5 0 = 5 ∧ min (max (5 : Int) 0) (3 - 1) = 2
    ∧ ¬ (paginationOnClick 5 0 = min (max (5 : Int) 0) (3 - 1)) := by
  refine ⟨rfl, by decide, by decide⟩

/-- C7, amended: for a pagination button that exists (`0 <= n < pageCount`, hence
`pageCount >= 1`), the click handler sets the index to `n`, which is `n` clamped
into `[0, pageCount - 1]`; the handler itself sets the index to its
`controlIndex` whatever the page count is. -/
theorem paginationOnClick_rendered (pageCount : Int) (n : Nat)
    (hn : n ∈ paginationControls pageCount) (prevState : Int) :
    paginationOnClick n prevState = n
    ∧ paginationOnClick n prevState = min (max (n : Int) 0) (pageCount - 1)
    ∧ (0 ≤ paginationOnClick n prevState ∧ paginationOnClick n prevState ≤ pageCount - 1) := by
  have hlt : (n : Int) < pageCount := (mem_paginationControls pageCount n).mp hn
  have h0 : (0 : Int) ≤ (n : Int) := Int.ofNat_nonneg n
  unfold paginationOnClick
  refine ⟨rfl, ?_, h0, by omega⟩
  rw [max_eq_left h0, min_eq_left (by omega)]

/-- A use of the amended C7: the third of three buttons. -/
theorem paginationOnClick_rendered_witness :
    2 ∈ paginationControls 3 ∧ paginationOnClick 2 0 = min (max ((2 : Nat) : Int) 0) (3 - 1) :=
  ⟨by decide, (paginationOnClick_rendered 3 2 (by decide) 0).2.1⟩

/-! ## Gestures -/

/-- The calls a swipe makes, by the sign of the displacement. -/
theorem handleSwipe_cases (gesturesOptions : GesturesOptions)
    (hmin : 0 ≤ gesturesOptions.minDistance) (startX endX : Int) :
    (endX - startX < -gesturesOptions.minDistance →
        handleSwipe gesturesOptions startX endX = [NavCall.next JsValue.undefined])
    ∧ (endX - startX > gesturesOptions.minDistance →
        handleSwipe gesturesOptions startX endX = [NavCall.prev JsValue.undefined])
    ∧ (|endX - startX| ≤ gesturesOptions.minDistance →
        handleSwipe gesturesOptions startX endX = []) := by
  unfold handleSwipe
  refine ⟨?_, ?_, ?_⟩
  · intro h
    have h2 : ¬ (endX - startX > gesturesOptions.minDistance) := by omega
    simp [h, h2]
  · intro h
    have h2 : ¬ (endX - startX < -gesturesOptions.minDistance) := by omega
    simp [h, h2]
  · intro h
    rw [abs_le] at h
    have h1 : ¬ (endX - startX < -gesturesOptions.minDistance) := by omega
    have h2 : ¬ (endX - startX > gesturesOptions.minDistance) := by omega
    simp [h1, h2]

/-- Calling a navigation function without `loop` is calling it with `false`. -/
theorem updater_undefined (pagesNumber index : Int) :
    handleNext pagesNumber JsValue.undefined index
        = handleNext pagesNumber (JsValue.boolean false) index
    ∧ handlePrev pagesNumber JsValue.undefined index
        = handlePrev pagesNumber (JsValue.boolean false) index := by
  simp [handleNext, handlePrev, defaultFalse]

/-- C5: for `minDistance >= 0` (the threshold held by `gesturesOptions`), a touch
that starts at `startX` and ends at `endX`, with `delta = endX - startX`, leaves
the index unchanged if `|delta| <= minDistance`, sets it to the result of
`next(loop = false)` if `delta < -minDistance`, and to the result of
`prev(loop = false)` if `delta > minDistance`; at most one navigation call is
made. -/
theorem touchend_navigation (gesturesOptions : GesturesOptions)
    (hmin : 0 ≤ gesturesOptions.minDistance) (pagesNumber : Int) (s : GestureState)
    (startX endX : Int) :
    (|endX - startX| ≤ gesturesOptions.minDistance →
        (handleTouchend gesturesOptions pagesNumber endX
          (handleTouchstart startX s)).index = s.index)
    ∧ (endX - startX < -gesturesOptions.minDistance →
        (handleTouchend gesturesOptions pagesNumber endX
          (handleTouchstart startX s)).index
          = handleNext pagesNumber (JsValue.boolean false) s.index)
    ∧ (endX - startX > gesturesOptions.minDistance →
        (handleTouchend gesturesOptions pagesNumber endX
          (handleTouchstart startX s)).index
          = handlePrev pagesNumber (JsValue.boolean false) s.index)
    ∧ (handleSwipe gesturesOptions startX endX).length ≤ 1 := by
  obtain ⟨hnext, hprev, hnone⟩ := handleSwipe_cases gesturesOptions hmin startX endX
  have hidx : (handleTouchend gesturesOptions pagesNumber endX
      (handleTouchstart startX s)).index
      = applyCalls pagesNumber (handleSwipe gesturesOptions startX endX) s.index := rfl
  refine ⟨?_, ?_, ?_, ?_⟩
  · intro h
    rw [hidx, hnone h]
    rfl
  · intro h
    rw [hidx, hnext h]
    exact (updater_undefined pagesNumber s.index).1
  · intro h
    rw [hidx, hprev h]
    exact (updater_undefined pagesNumber s.index).2
  · by_cases h1 : endX - startX < -gesturesOptions.minDistance
    · rw [hnext h1]; simp
    · by_cases h2 : endX - startX > gesturesOptions.minDistance
      · rw [hprev h2]; simp
      · rw [hnone (abs_le.mpr ⟨by omega, by omega⟩)]; simp

/-- A use of C5: thresholds 15, three pages, a touch from 100 to 70 on page 0 goes
to page 1. -/
theorem touchend_navigation_witness :
    (0 : Int) ≤ (GesturesOptions.mk 15 15).minDistance
    ∧ (handleTouchend (GesturesOptions.mk 15 15) 3 70
        (handleTouchstart 100 (GestureState.mk 0 0 0 Transform.translateXZero 0))).index
        = handleNext 3 (JsValue.boolean false) 0 :=
  ⟨by decide,
    (touchend_navigation (GesturesOptions.mk 15 15) (by decide) 3
      (GestureState.mk 0 0 0 Transform.translateXZero 0) 100 70).2.1 (by decide)⟩

/-- C9: for `minDistance >= 0` and `feedbackDistance >= 0`, a touch move to
`currentX` after a touch start at `startX`, with `delta = currentX - startX`, sets
the feedback offset to `-feedbackDistance` if `delta < -minDistance`, to
`+feedbackDistance` if `delta > minDistance`, and to 0 otherwise, and leaves the
page index unchanged. -/
theorem touchmove_feedback (gesturesOptions : GesturesOptions)
    (hmin : 0 ≤ gesturesOptions.minDistance) (hfeedback : 0 ≤ gesturesOptions.feedbackDistance)
    (s : GestureState) (startX currentX : Int) :
    (handleTouchmove gesturesOptions currentX (handleTouchstart startX s)).index = s.index
    ∧ (currentX - startX < -gesturesOptions.minDistance →
        (handleTouchmove gesturesOptions currentX (handleTouchstart startX s)).transform.offset
          = some (-gesturesOptions.feedbackDistance))
    ∧ (currentX - startX > gesturesOptions.minDistance →
        (handleTouchmove gesturesOptions currentX (handleTouchstart startX s)).transform.offset
          = some gesturesOptions.feedbackDistance)
    ∧ (¬ (currentX - startX < -gesturesOptions.minDistance)
        → ¬ (currentX - startX > gesturesOptions.minDistance) →
        (handleTouchmove gesturesOptions currentX (handleTouchstart startX s)).transform.offset
          = some 0) := by
  have ht : (handleTouchmove gesturesOptions currentX (handleTouchstart startX s)).transform
      = handleFeedback gesturesOptions startX currentX := rfl
  refine ⟨rfl, ?_, ?_, ?_⟩
  · intro h
    rw [ht]
    unfold handleFeedback
    simp [h, Transform.offset, hfeedback]
  · intro h
    have h2 : ¬ (currentX - startX < -gesturesOptions.minDistance) := by omega
    rw [ht]
    unfold handleFeedback
    simp [h, h2, Transform.offset]
  · intro h1 h2
    rw [ht]
    unfold handleFeedback
    simp [h1, h2, Transform.offset]

/-- A use of C9: start at 100, move to 80, thresholds 15 and 15: the offset is -15
and the index stays 0. -/
theorem touchmove_feedback_witness :
    ((0 : Int) ≤ (GesturesOptions.mk 15 15).minDistance
      ∧ (0 : Int) ≤ (GesturesOptions.mk 15 15).feedbackDistance)
    ∧ (handleTouchmove (GesturesOptions.mk 15 15) 80
        (handleTouchstart 100 (GestureState.mk 0 0 0 Transform.translateXZero 0))).transform.offset
        = some (-15)
    ∧ (handleTouchmove (GesturesOptions.mk 15 15) 80
        (handleTouchstart 100 (GestureState.mk 0 0 0 Transform.translateXZero 0))).index = 0 :=
  ⟨⟨by decide, by decide⟩,
    (touchmove_feedback (GesturesOptions.mk 15 15) (by decide) (by decide)
      (GestureState.mk 0 0 0 Transform.translateXZero 0) 100 80).2.1 (by decide),
    (touchmove_feedback (GesturesOptions.mk 15 15) (by decide) (by decide)
      (GestureState.mk 0 0 0 Transform.translateXZero 0) 100 80).1⟩

/-- The defaults of lines 82-83 turn a threshold of 0 into 15. -/
theorem gesturesOptionsOf_zero :
    gesturesOptionsOf (some 0) (some 0) = GesturesOptions.mk 15 15
    ∧ gesturesOptionsOf none none = GesturesOptions.mk 15 15 := by
  decide

/-! ## The machine over events -/

theorem applyCalls_inRange (pagesNumber : Int) (hp : 1 ≤ pagesNumber) :
    ∀ (calls : List NavCall) (index : Int), 0 ≤ index → index ≤ pagesNumber - 1 →
      0 ≤ applyCalls pagesNumber calls index
        ∧ applyCalls pagesNumber calls index ≤ pagesNumber - 1 := by
  intro calls
  induction calls with
  | nil => intro index h0 h1; exact ⟨h0, h1⟩
  | cons c calls ih =>
    intro index h0 h1
    have hstep : 0 ≤ c.updater pagesNumber index
        ∧ c.updater pagesNumber index ≤ pagesNumber - 1 := by
      cases c with
      | next loop =>
        simp only [NavCall.updater]; unfold handleNext; split_ifs <;> omega
      | prev loop =>
        simp only [NavCall.updater]; unfold handlePrev; split_ifs <;> omega
    exact ih _ hstep.1 hstep.2

theorem step_inRange (s : CarouselState) (e : Event) (hs : InRange s)
    (he : e.KeepsNonEmpty) : InRange (step s e) := by
  obtain ⟨hp, h0, h1⟩ := hs
  cases e with
  | next loop =>
    refine ⟨hp, ?_⟩
    show 0 ≤ handleNext s.pagesNumber loop s.index
      ∧ handleNext s.pagesNumber loop s.index ≤ s.pagesNumber - 1
    unfold handleNext; split_ifs <;> omega
  | prev loop =>
    refine ⟨hp, ?_⟩
    show 0 ≤ handlePrev s.pagesNumber loop s.index
      ∧ handlePrev s.pagesNumber loop s.index ≤ s.pagesNumber - 1
    unfold handlePrev; split_ifs <;> omega
  | paginationClick controlIndex =>
    simp only [step]
    split_ifs with hmem
    · have hlt := (mem_paginationControls s.pagesNumber controlIndex).mp hmem
      refine ⟨hp, ?_, ?_⟩
      · show (0 : Int) ≤ (controlIndex : Int)
        exact Int.ofNat_nonneg _
      · show (controlIndex : Int) ≤ s.pagesNumber - 1
        omega
    · exact ⟨hp, h0, h1⟩
  | swipe gesturesOptions startX endX =>
    exact ⟨hp, applyCalls_inRange s.pagesNumber hp _ s.index h0 h1⟩
  | autoPlayTick =>
    refine ⟨hp, ?_⟩
    show 0 ≤ autoPlayTick s.pagesNumber s.index
      ∧ autoPlayTick s.pagesNumber s.index ≤ s.pagesNumber - 1
    unfold autoPlayTick handleNext; split_ifs <;> omega
  | pageCountChange childrenLength breakpointNumber =>
    obtain ⟨hn, hk⟩ := he
    have hpos := pagesNumber_pos childrenLength breakpointNumber hn hk
    refine ⟨hpos, ?_⟩
    show 0 ≤ reconcile (pagesNumber childrenLength breakpointNumber) s.index
      ∧ reconcile (pagesNumber childrenLength breakpointNumber) s.index
          ≤ pagesNumber childrenLength breakpointNumber - 1
    unfold reconcile; split_ifs <;> omega

/-- With at least one child at mount and after every change, every finite sequence
of events leaves the index in `[0, pagesNumber - 1]`. -/
theorem run_inRange (childrenLength breakpointNumber : Nat)
    (hn : 1 ≤ childrenLength) (hk : 1 ≤ breakpointNumber) (events : List Event)
    (hev : ∀ e ∈ events, e.KeepsNonEmpty) :
    InRange (run (mount childrenLength breakpointNumber) events) := by
  have hmount : InRange (mount childrenLength breakpointNumber) := by
    have hpos := pagesNumber_pos childrenLength breakpointNumber hn hk
    refine ⟨hpos, ?_⟩
    show 0 ≤ reconcile (pagesNumber childrenLength breakpointNumber) 0
      ∧ reconcile (pagesNumber childrenLength breakpointNumber) 0
          ≤ pagesNumber childrenLength breakpointNumber - 1
    unfold reconcile; split_ifs <;> omega
  unfold run
  generalize mount childrenLength breakpointNumber = s at hmount
  induction events generalizing s with
  | nil => exact hmount
  | cons e events ih =>
    rw [List.foldl_cons]
    apply ih
    · intro e' he'
      exact hev e' (List.mem_cons_of_mem _ he')
    · exact step_inRange s e hmount (hev e (List.mem_cons_self _ _))

/-- C1: with an empty item collection (page count 0) the index does not stay 0.
The effect of lines 165-169, which runs on mount, sets it to -1; so does a
page-count change to 0, and so does `handlePrev(true)` at index 0. The index -1
is outside `[0, max(pageCount - 1, 0)]`, and with it the prev button is
rendered. -/
theorem empty_carousel_index_negative :
    (mount 0 1).pagesNumber = 0 ∧ (mount 0 1).index = -1
    ∧ ¬ (0 ≤ (mount 0 1).index ∧ (mount 0 1).index ≤ max ((mount 0 1).pagesNumber - 1) 0)
    ∧ prevButtonRendered true (mount 0 1).index = true
    ∧ (run (CarouselState.mk 5 2 0) [Event.pageCountChange 0 2]).index = -1
    ∧ (run (CarouselState.mk 0 1 0) [Event.prev (JsValue.boolean true)]).index = -1 := by
  have hp : ∀ k : Nat, pagesNumber 0 k = 0 := by intro k; simp [pagesNumber]
  have hm : (mount 0 1).index = -1 := by
    show reconcile (pagesNumber 0 1) 0 = -1
    rw [hp]; rfl
  have hpn : (mount 0 1).pagesNumber = 0 := hp 1
  refine ⟨hpn, hm, ?_, ?_, ?_, ?_⟩
  · rw [hm]; decide
  · rw [hm]; rfl
  · show reconcile (pagesNumber 0 2) 0 = -1
    rw [hp]; rfl
  · show handlePrev (pagesNumber 0 1) (JsValue.boolean true) 0 = -1
    rw [hp]; rfl

end Carousel
